import Mathlib

/-!
Verification of the HL7/FHIR message translator of the healthcare-ai-agent
backend (`backend/agent.py`).

The translator is modelled shallowly:

* Python `s.split(sep)` is always called with a single-character separator
  (`"\r"`, `"|"`, `"^"`), so it is embedded as `List.splitOn` on the string's
  character list (both keep empty parts and produce N+1 parts for N
  separators).
* Python list indexing `xs[i]`, which raises `IndexError` when out of range,
  is embedded as `listGet` returning `Except PyErr`; the parser
  `parse_hl7_message` and the serializer `convert_fhir_to_hl7` therefore
  return `Except PyErr _`, and "the function never raises" becomes "the
  result is `Except.ok _`".
* Python dynamic values appearing in the FHIR input dictionary are embedded
  as the JSON-like type `JValue`; the dynamic attribute/subscript/membership
  operations raise the corresponding Python errors on ill-typed operands.
-/

/-- Kinds of Python runtime errors the embedded operations can raise. -/
inductive PyErr where
  | indexError
  | keyError
  | typeError
  | attributeError
  | valueError
deriving Repr, DecidableEq

/-- One observation record appended by the `OBX` branch of
`parse_hl7_message`: `{"id": fields[3], "value": fields[5], "units": fields[6] or None}`. -/
structure Observation where
  id : String
  value : String
  units : Option String
deriving Repr, DecidableEq

/-- The result dictionary built by `parse_hl7_message`.  Each Python key that
may be absent from the dictionary is an `Option`; `observations := none`
models the `"observations"` key being absent (the Python code only creates
the key when the first well-formed `OBX` segment is found). -/
structure ParsedRecord where
  patient_id : Option String := none
  last_name : Option String := none
  first_name : Option String := none
  observations : Option (List Observation) := none
deriving Repr, DecidableEq

/-- Python `s.split(sep)` for a single-character separator: split the
character list on the separator, keeping empty parts. -/
def pySplit (s : String) (sep : Char) : List String :=
  (s.data.splitOn sep).map String.mk

/-- Python list indexing `xs[i]`: raises `IndexError` when out of range. -/
def listGet (xs : List α) (i : Nat) : Except PyErr α :=
  match xs[i]? with
  | some x => Except.ok x
  | none => Except.error PyErr.indexError

theorem pySplit_ne_nil (s : String) (sep : Char) : pySplit s sep ≠ [] := by
  simp only [pySplit, List.splitOn, ne_eq, List.map_eq_nil_iff]
  exact List.splitOnP_ne_nil _ _

theorem listGet_eq_getD (xs : List α) (i : Nat) (d : α) (h : i < xs.length) :
    listGet xs i = Except.ok (xs.getD i d) := by
  simp [listGet, List.getElem?_eq_getElem h, List.getD_eq_getElem?_getD]

/-- Loop body of `parse_hl7_message` (`backend/agent.py`, lines 53-76): one
segment updates the result dictionary.  Translated operation by operation
from the Python source, with indexing in the `Except` monad. -/
def processSegment (result : ParsedRecord) (segment : String) : Except PyErr ParsedRecord :=
  if segment = "" then pure result
  else do
    let fields := pySplit segment '|'
    let segment_type ← listGet fields 0
    if segment_type = "PID" then
      if fields.length > 5 then do
        let pid ← listGet fields 3
        let field5 ← listGet fields 5
        let name_parts := if fields.length > 5 then pySplit field5 '^' else []
        let r1 : ParsedRecord := { result with patient_id := some pid }
        if name_parts.length ≥ 2 then do
          let ln ← listGet name_parts 0
          let fn ← listGet name_parts 1
          pure { r1 with last_name := some ln, first_name := some fn }
        else
          pure r1
      else pure result
    else if segment_type = "OBX" then
      if fields.length > 5 then do
        let oid ← listGet fields 3
        let oval ← listGet fields 5
        let ounits ← if fields.length > 6 then do
            let u ← listGet fields 6
            pure (some u)
          else pure (none : Option String)
        let obs := result.observations.getD []
        let ob : Observation := { id := oid, value := oval, units := ounits }
        pure { result with observations := some (obs ++ [ob]) }
      else pure result
    else pure result

theorem exceptBind_ok (a : α) (f : α → Except PyErr β) :
    (Except.ok a : Except PyErr α) >>= f = f a := rfl

theorem exceptPure_eq (a : α) : (pure a : Except PyErr α) = Except.ok a := rfl

theorem listGet_zero (a : α) (as : List α) : listGet (a :: as) 0 = Except.ok a := by
  simp [listGet]

/-- Loop of `parse_hl7_message` over the list of segments, in order. -/
def parseSegments (result : ParsedRecord) : List String → Except PyErr ParsedRecord
  | [] => pure result
  | s :: ss => do
    let r ← processSegment result s
    parseSegments r ss

/-- The HL7 parser `HealthcareAgent.parse_hl7_message`: split the message on
carriage returns and fold the segment processor over the segments, starting
from the empty dictionary. -/
def parse_hl7_message (hl7_message : String) : Except PyErr ParsedRecord :=
  parseSegments {} (pySplit hl7_message '\r')

/-- Total companion of `processSegment`: the same computation with the
(in-range, as proved below) list indexings replaced by `getD`. -/
def processSegmentPure (result : ParsedRecord) (segment : String) : ParsedRecord :=
  if segment = "" then result
  else
    let fields := pySplit segment '|'
    let segment_type := fields.headD ""
    if segment_type = "PID" then
      if fields.length > 5 then
        let name_parts := pySplit (fields.getD 5 "") '^'
        let r1 : ParsedRecord := { result with patient_id := some (fields.getD 3 "") }
        if name_parts.length ≥ 2 then
          { r1 with last_name := some (name_parts.getD 0 ""),
                    first_name := some (name_parts.getD 1 "") }
        else r1
      else result
    else if segment_type = "OBX" then
      if fields.length > 5 then
        { result with observations := some (result.observations.getD [] ++
            [{ id := fields.getD 3 "", value := fields.getD 5 "",
               units := if fields.length > 6 then some (fields.getD 6 "") else none }]) }
      else result
    else result

theorem processSegment_eq (result : ParsedRecord) (segment : String) :
    processSegment result segment = pure (processSegmentPure result segment) := by
  by_cases hseg : segment = ""
  · simp [processSegment, processSegmentPure, hseg]
  · obtain ⟨a, as, hf⟩ := List.exists_cons_of_ne_nil (pySplit_ne_nil segment '|')
    simp only [processSegment, processSegmentPure, hseg, if_false, hf,
      listGet_zero, exceptBind_ok, List.headD_cons, List.length_cons]
    by_cases hP : a = "PID"
    · subst hP
      by_cases hlen : as.length + 1 > 5
      · have h3 := listGet_eq_getD ("PID" :: as) 3 "" (by simp only [List.length_cons]; omega)
        have h5 := listGet_eq_getD ("PID" :: as) 5 "" (by simp only [List.length_cons]; omega)
        simp only [if_pos rfl, hlen, if_true, h3, h5, exceptBind_ok, exceptPure_eq,
          List.length_cons]
        by_cases hnp : (pySplit (("PID" :: as).getD 5 "") '^').length ≥ 2
        · have hg0 := listGet_eq_getD (pySplit (("PID" :: as).getD 5 "") '^') 0 "" (by omega)
          have hg1 := listGet_eq_getD (pySplit (("PID" :: as).getD 5 "") '^') 1 "" (by omega)
          simp only [if_pos hnp, hg0, hg1, exceptBind_ok]
        · simp only [if_neg hnp]
      · simp [hlen]
    · by_cases hO : a = "OBX"
      · subst hO
        by_cases hlen : as.length + 1 > 5
        · have h3 := listGet_eq_getD ("OBX" :: as) 3 "" (by simp only [List.length_cons]; omega)
          have h5 := listGet_eq_getD ("OBX" :: as) 5 "" (by simp only [List.length_cons]; omega)
          simp only [if_neg (by decide : ¬("OBX" : String) = "PID"), if_pos rfl, hlen, if_true,
            h3, h5, exceptBind_ok, exceptPure_eq, List.length_cons]
          by_cases hlen6 : as.length + 1 > 6
          · have h6 := listGet_eq_getD ("OBX" :: as) 6 "" (by simp only [List.length_cons]; omega)
            simp only [if_pos hlen6, h6, exceptBind_ok, exceptPure_eq]
          · simp only [if_neg hlen6, exceptBind_ok, exceptPure_eq]
        · simp [hlen]
      · simp only [if_neg hP, if_neg hO, exceptPure_eq]

/-- Total companion of the parser. -/
def parsePure (hl7_message : String) : ParsedRecord :=
  (pySplit hl7_message '\r').foldl processSegmentPure {}

theorem parseSegments_eq (ss : List String) (r : ParsedRecord) :
    parseSegments r ss = pure (ss.foldl processSegmentPure r) := by
  induction ss generalizing r with
  | nil => rfl
  | cons s ss ih =>
    simp [parseSegments, processSegment_eq, ih, exceptPure_eq, exceptBind_ok]

theorem parse_eq_pure (hl7_message : String) :
    parse_hl7_message hl7_message = pure (parsePure hl7_message) := by
  simp [parse_hl7_message, parsePure, parseSegments_eq]

/-- Segment type code: field index 0 of the pipe-split of the segment. -/
def segmentType (s : String) : String := (pySplit s '|').headD ""

/-- The observation contributed by one segment: an `OBX` segment with more
than 5 fields contributes `{id := fields[3], value := fields[5], units :=
fields[6] or none}`; any other segment contributes nothing. -/
def obsOf (s : String) : Option Observation :=
  let fields := pySplit s '|'
  if segmentType s = "OBX" ∧ fields.length > 5 then
    some { id := fields.getD 3 "", value := fields.getD 5 "",
           units := if fields.length > 6 then some (fields.getD 6 "") else none }
  else none

theorem processSegmentPure_not_pid (r : ParsedRecord) (s : String)
    (h : segmentType s ≠ "PID") :
    (processSegmentPure r s).patient_id = r.patient_id ∧
    (processSegmentPure r s).last_name = r.last_name ∧
    (processSegmentPure r s).first_name = r.first_name := by
  unfold processSegmentPure
  unfold segmentType at h
  by_cases hs : s = ""
  · simp [hs]
  · simp only [hs, if_false]
    split_ifs <;> simp_all

theorem processSegmentPure_pid (r : ParsedRecord) (s : String)
    (hty : segmentType s = "PID") (hlen : (pySplit s '|').length > 5) :
    (processSegmentPure r s).patient_id = some ((pySplit s '|').getD 3 "") ∧
    (if (pySplit ((pySplit s '|').getD 5 "") '^').length ≥ 2 then
      (processSegmentPure r s).last_name =
          some ((pySplit ((pySplit s '|').getD 5 "") '^').getD 0 "") ∧
      (processSegmentPure r s).first_name =
          some ((pySplit ((pySplit s '|').getD 5 "") '^').getD 1 "")
    else
      (processSegmentPure r s).last_name = r.last_name ∧
      (processSegmentPure r s).first_name = r.first_name) := by
  have hs : s ≠ "" := by
    intro h
    rw [h] at hty
    revert hty
    decide
  unfold processSegmentPure
  unfold segmentType at hty
  simp only [hs, if_false, hty, if_pos rfl, hlen, if_true]
  split_ifs <;> simp_all

theorem processSegmentPure_observations (r : ParsedRecord) (s : String) :
    (processSegmentPure r s).observations =
      match obsOf s with
      | none => r.observations
      | some o => some (r.observations.getD [] ++ [o]) := by
  unfold processSegmentPure obsOf
  by_cases hs : s = ""
  · subst hs
    have : segmentType "" = "" := by decide
    simp [this]
  · unfold segmentType
    simp only [hs, if_false]
    split_ifs <;> simp_all

theorem foldl_not_pid (ss : List String) (r : ParsedRecord)
    (h : ∀ s ∈ ss, segmentType s ≠ "PID") :
    (ss.foldl processSegmentPure r).patient_id = r.patient_id ∧
    (ss.foldl processSegmentPure r).last_name = r.last_name ∧
    (ss.foldl processSegmentPure r).first_name = r.first_name := by
  induction ss generalizing r with
  | nil => simp
  | cons s ss ih =>
    have hstep := processSegmentPure_not_pid r s (h s (by simp))
    have hrest := ih (processSegmentPure r s) (fun t ht => h t (by simp [ht]))
    simp only [List.foldl_cons]
    exact ⟨hrest.1.trans hstep.1, hrest.2.1.trans hstep.2.1, hrest.2.2.trans hstep.2.2⟩

theorem foldl_observations (ss : List String) (r : ParsedRecord) :
    ((ss.foldl processSegmentPure r).observations.getD [] =
      r.observations.getD [] ++ ss.filterMap obsOf) ∧
    ((ss.foldl processSegmentPure r).observations.isSome ↔
      (r.observations.isSome ∨ ss.filterMap obsOf ≠ [])) := by
  induction ss generalizing r with
  | nil => simp
  | cons s ss ih =>
    have hps := processSegmentPure_observations r s
    cases ho : obsOf s with
    | none =>
      rw [ho] at hps
      refine ⟨?_, ?_⟩
      · simp only [List.foldl_cons, List.filterMap_cons, ho]
        rw [(ih (processSegmentPure r s)).1, hps]
      · simp only [List.foldl_cons, List.filterMap_cons, ho]
        rw [(ih (processSegmentPure r s)).2, hps]
    | some o =>
      rw [ho] at hps
      refine ⟨?_, ?_⟩
      · simp only [List.foldl_cons, List.filterMap_cons, ho]
        rw [(ih (processSegmentPure r s)).1, hps]
        simp
      · simp only [List.foldl_cons, List.filterMap_cons, ho]
        rw [(ih (processSegmentPure r s)).2, hps]
        simp

theorem parse_result_eq (msg : String) (r : ParsedRecord)
    (h : parse_hl7_message msg = Except.ok r) : r = parsePure msg := by
  have h2 : Except.ok r = Except.ok (parsePure msg) := h.symm.trans (parse_eq_pure msg)
  injection h2

/-- C2: `parse_hl7_message` is total: for every input string, including the
empty and arbitrarily malformed ones, it returns a record and never raises
(none of the embedded indexing operations can fail). -/
theorem parse_total (msg : String) : ∃ r, parse_hl7_message msg = Except.ok r :=
  ⟨parsePure msg, parse_eq_pure msg⟩

/-- C1: for every message whose carriage-return split contains exactly one
`PID`-typed segment, that segment having more than 5 pipe-delimited fields
with field index 3 equal to `"12345"` and field index 5 equal to
`"Smith^John"`, the parse result has `patient_id = "12345"`,
`last_name = "Smith"`, `first_name = "John"`. -/
theorem parse_single_pid_smith_john (msg : String) (pre post : List String) (s : String)
    (r : ParsedRecord)
    (hsplit : pySplit msg '\r' = pre ++ s :: post)
    (honly : ∀ t ∈ pre ++ post, segmentType t ≠ "PID")
    (hty : segmentType s = "PID")
    (hlen : (pySplit s '|').length > 5)
    (h3 : (pySplit s '|').getD 3 "" = "12345")
    (h5 : (pySplit s '|').getD 5 "" = "Smith^John")
    (hr : parse_hl7_message msg = Except.ok r) :
    r.patient_id = some "12345" ∧ r.last_name = some "Smith" ∧ r.first_name = some "John" := by
  have hre := parse_result_eq msg r hr
  subst hre
  unfold parsePure
  rw [hsplit, List.foldl_append, List.foldl_cons]
  have hpid := processSegmentPure_pid (List.foldl processSegmentPure {} pre) s hty hlen
  rw [h3, h5] at hpid
  have hpp : pySplit "Smith^John" '^' = ["Smith", "John"] := by decide
  rw [hpp] at hpid
  simp only [List.length_cons, List.length_nil, (by decide : 1 + 1 ≥ 2) , if_pos,
    List.getD] at hpid
  have hpost := foldl_not_pid post (processSegmentPure (List.foldl processSegmentPure {} pre) s)
    (fun t ht => honly t (List.mem_append_right pre ht))
  refine ⟨hpost.1.trans hpid.1, ?_, ?_⟩
  · rw [hpost.2.1]
    exact hpid.2.1
  · rw [hpost.2.2]
    exact hpid.2.2

/-- Witness instantiating C1 on the concrete message `PID|||12345||Smith^John|`. -/
theorem parse_single_pid_smith_john_witness :
    ({ patient_id := some "12345", last_name := some "Smith", first_name := some "John",
       observations := none } : ParsedRecord).patient_id = some "12345" ∧
    ({ patient_id := some "12345", last_name := some "Smith", first_name := some "John",
       observations := none } : ParsedRecord).last_name = some "Smith" ∧
    ({ patient_id := some "12345", last_name := some "Smith", first_name := some "John",
       observations := none } : ParsedRecord).first_name = some "John" :=
  parse_single_pid_smith_john "PID|||12345||Smith^John|" [] [] "PID|||12345||Smith^John|"
    { patient_id := some "12345", last_name := some "Smith", first_name := some "John",
      observations := none }
    (by decide) (by simp) (by decide) (by decide) (by decide) (by decide) rfl

/-- C3: for every input message, the observations sequence of the parse
result is exactly the in-order list of observations contributed by the `OBX`
segments with more than 5 fields (`obsOf`): each such segment appends exactly
one observation `{id := fields[3], value := fields[5], units := fields[6] or
none}`, encounter order is preserved, and no other segment contributes. -/
theorem parse_observations_exact (msg : String) (r : ParsedRecord)
    (h : parse_hl7_message msg = Except.ok r) :
    r.observations.getD [] = (pySplit msg '\r').filterMap obsOf := by
  have hre := parse_result_eq msg r h
  subst hre
  unfold parsePure
  have hf := (foldl_observations (pySplit msg '\r') {}).1
  simpa using hf

/-- Witness instantiating C3 on a message with one well-formed `OBX` segment
(with a units field) and one too-short `OBX` segment (ignored). -/
theorem parse_observations_exact_witness :
    ({ patient_id := none, last_name := none, first_name := none,
       observations := some [{ id := "HR", value := "72", units := some "bpm" }] } :
        ParsedRecord).observations.getD [] =
      (pySplit "OBX|||HR||72|bpm\rOBX|x" '\r').filterMap obsOf :=
  parse_observations_exact "OBX|||HR||72|bpm\rOBX|x"
    { patient_id := none, last_name := none, first_name := none,
      observations := some [{ id := "HR", value := "72", units := some "bpm" }] } rfl

/-- C10: the parse result has an `observations` key exactly when the input
has at least one `OBX` segment with more than 5 fields, and the key, when
present, never holds an empty sequence. -/
theorem parse_observations_key_iff (msg : String) (r : ParsedRecord)
    (h : parse_hl7_message msg = Except.ok r) :
    (r.observations.isSome ↔ ∃ s ∈ pySplit msg '\r', (obsOf s).isSome) ∧
    (∀ l, r.observations = some l → l ≠ []) := by
  have hre := parse_result_eq msg r h
  subst hre
  unfold parsePure
  have hf := foldl_observations (pySplit msg '\r') {}
  constructor
  · rw [hf.2]
    simp only [show ({} : ParsedRecord).observations = none from rfl, Option.isSome_none,
      Bool.false_eq_true, false_or, ne_eq, List.filterMap_eq_nil_iff]
    push_neg
    constructor
    · rintro ⟨s, hs, hns⟩
      exact ⟨s, hs, by simp [Option.isSome_iff_ne_none, hns]⟩
    · rintro ⟨s, hs, hns⟩
      exact ⟨s, hs, by simpa [Option.isSome_iff_ne_none] using hns⟩
  · intro l hl hnil
    have h1 := hf.1
    rw [hl] at h1
    have h2 := hf.2
    rw [hl] at h2
    simp only [Option.isSome_some, true_iff,
      show ({} : ParsedRecord).observations = none from rfl, Option.isSome_none,
      Bool.false_eq_true, false_or] at h2
    simp only [hnil, Option.getD_some,
      show ({} : ParsedRecord).observations = none from rfl, Option.getD_none,
      List.nil_append] at h1
    exact h2 h1.symm

/-- Witness instantiating C10 on a message with patient data but no
well-formed `OBX` segment: the `observations` key is absent. -/
theorem parse_observations_key_iff_witness :
    (({ patient_id := some "12345", last_name := some "Smith", first_name := some "John",
        observations := none } : ParsedRecord).observations.isSome ↔
      ∃ s ∈ pySplit "PID|||12345||Smith^John|\rOBX|x" '\r', (obsOf s).isSome) ∧
    (∀ l, ({ patient_id := some "12345", last_name := some "Smith",
             first_name := some "John",
             observations := none } : ParsedRecord).observations = some l → l ≠ []) :=
  parse_observations_key_iff "PID|||12345||Smith^John|\rOBX|x"
    { patient_id := some "12345", last_name := some "Smith", first_name := some "John",
      observations := none } rfl

/-- Counterexample to C5 as stated: in the message
`PID|||A||Smith^John|<CR>PID|||B||Jones|` the second (last) `PID` segment has
more than 5 fields, yet the result keeps `last_name = "Smith"` and
`first_name = "John"` from the FIRST segment (the second segment's field 5
has a single caret component, so the name keys are not overwritten), while
parsing the last segment alone yields no name keys at all.  The patient
fields therefore do not come entirely from the last `PID` segment. -/
theorem parse_multi_pid_cex :
    parse_hl7_message "PID|||A||Smith^John|\rPID|||B||Jones|" =
      Except.ok { patient_id := some "B", last_name := some "Smith",
                  first_name := some "John", observations := none } ∧
    parse_hl7_message "PID|||B||Jones|" =
      Except.ok { patient_id := some "B", last_name := none,
                  first_name := none, observations := none } :=
  ⟨rfl, rfl⟩

/-- C5 (amended): every later `PID` segment with more than 5 fields
overwrites `patient_id`; it overwrites `last_name`/`first_name` only when its
field 5 has at least two caret components.  Consequently the result's
`patient_id` always comes from the last such `PID` segment, and when that
segment's field 5 has at least two components all three patient fields come
from it. -/
theorem parse_last_pid_wins (msg : String) (pre post : List String) (s : String)
    (r : ParsedRecord)
    (hsplit : pySplit msg '\r' = pre ++ s :: post)
    (hpost : ∀ t ∈ post, segmentType t ≠ "PID")
    (hty : segmentType s = "PID")
    (hlen : (pySplit s '|').length > 5)
    (hr : parse_hl7_message msg = Except.ok r) :
    r.patient_id = some ((pySplit s '|').getD 3 "") ∧
    ((pySplit ((pySplit s '|').getD 5 "") '^').length ≥ 2 →
      r.last_name = some ((pySplit ((pySplit s '|').getD 5 "") '^').getD 0 "") ∧
      r.first_name = some ((pySplit ((pySplit s '|').getD 5 "") '^').getD 1 "")) := by
  have hre := parse_result_eq msg r hr
  subst hre
  unfold parsePure
  rw [hsplit, List.foldl_append, List.foldl_cons]
  have hpid := processSegmentPure_pid (List.foldl processSegmentPure {} pre) s hty hlen
  have hkeep := foldl_not_pid post
    (processSegmentPure (List.foldl processSegmentPure {} pre) s) hpost
  refine ⟨hkeep.1.trans hpid.1, fun hnp => ?_⟩
  rw [if_pos hnp] at hpid
  exact ⟨hkeep.2.1.trans hpid.2.1, hkeep.2.2.trans hpid.2.2⟩

/-- Witness instantiating the amended C5 on a two-`PID` message whose last
`PID` segment has a two-component name. -/
theorem parse_last_pid_wins_witness :
    ({ patient_id := some "B", last_name := some "Doe", first_name := some "Jane",
       observations := none } : ParsedRecord).patient_id =
        some ((pySplit "PID|||B||Doe^Jane|" '|').getD 3 "") ∧
    ({ patient_id := some "B", last_name := some "Doe", first_name := some "Jane",
       observations := none } : ParsedRecord).last_name =
        some ((pySplit ((pySplit "PID|||B||Doe^Jane|" '|').getD 5 "") '^').getD 0 "") ∧
    ({ patient_id := some "B", last_name := some "Doe", first_name := some "Jane",
       observations := none } : ParsedRecord).first_name =
        some ((pySplit ((pySplit "PID|||B||Doe^Jane|" '|').getD 5 "") '^').getD 1 "") :=
  have h := parse_last_pid_wins "PID|||A||Smith^John|\rPID|||B||Doe^Jane|"
    ["PID|||A||Smith^John|"] [] "PID|||B||Doe^Jane|"
    { patient_id := some "B", last_name := some "Doe", first_name := some "Jane",
      observations := none }
    (by decide) (by simp) (by decide) (by decide) rfl
  ⟨h.1, (h.2 (by decide)).1, (h.2 (by decide)).2⟩

/-- C6: for every message whose only `PID`-typed segment has more than 5
fields but whose field index 5 splits on `^` into a single component, the
parse result sets neither `last_name` nor `first_name`. -/
theorem parse_partial_name_dropped (msg : String) (pre post : List String) (s : String)
    (r : ParsedRecord)
    (hsplit : pySplit msg '\r' = pre ++ s :: post)
    (honly : ∀ t ∈ pre ++ post, segmentType t ≠ "PID")
    (hty : segmentType s = "PID")
    (hlen : (pySplit s '|').length > 5)
    (hone : (pySplit ((pySplit s '|').getD 5 "") '^').length = 1)
    (hr : parse_hl7_message msg = Except.ok r) :
    r.last_name = none ∧ r.first_name = none := by
  have hre := parse_result_eq msg r hr
  subst hre
  unfold parsePure
  rw [hsplit, List.foldl_append, List.foldl_cons]
  have hpre := foldl_not_pid pre {}
    (fun t ht => honly t (List.mem_append_left post ht))
  have hpid := processSegmentPure_pid (List.foldl processSegmentPure {} pre) s hty hlen
  rw [if_neg (by omega)] at hpid
  have hpost := foldl_not_pid post
    (processSegmentPure (List.foldl processSegmentPure {} pre) s)
    (fun t ht => honly t (List.mem_append_right pre ht))
  constructor
  · rw [hpost.2.1, hpid.2.1, hpre.2.1]
  · rw [hpost.2.2, hpid.2.2, hpre.2.2]

/-- Witness instantiating C6 on the concrete message `PID|||12345||Smith|`. -/
theorem parse_partial_name_dropped_witness :
    ({ patient_id := some "12345", last_name := none, first_name := none,
       observations := none } : ParsedRecord).last_name = none ∧
    ({ patient_id := some "12345", last_name := none, first_name := none,
       observations := none } : ParsedRecord).first_name = none :=
  parse_partial_name_dropped "PID|||12345||Smith|" [] [] "PID|||12345||Smith|"
    { patient_id := some "12345", last_name := none, first_name := none,
      observations := none }
    (by decide) (by simp) (by decide) (by decide) (by decide) rfl

/-- JSON-like Python values: the possible contents of the FHIR input
dictionary received by `convert_fhir_to_hl7` (the gateway only enforces that
the top level is a string-keyed dictionary). -/
inductive JValue where
  | null
  | bool (b : Bool)
  | num (n : Int)
  | str (s : String)
  | arr (xs : List JValue)
  | obj (kvs : List (String × JValue))

/-- A Python dictionary with string keys. -/
abbrev PyDict := List (String × JValue)

/-- Lookup of a key in a dictionary (keys are unique in a parsed JSON
object, so first match stands for the dictionary entry). -/
def dictFind (d : PyDict) (k : String) : Option JValue :=
  (d.find? (fun p => p.1 == k)).map Prod.snd

/-- Python `d.get(k, dflt)` on a dictionary: never raises. -/
def dictGetD (d : PyDict) (k : String) (dflt : JValue) : JValue :=
  (dictFind d k).getD dflt

/-- Python truthiness of a value: `None`, `False`, `0`, and the empty
string/list/dict are falsy; everything else is truthy. -/
def pyTruthy : JValue → Bool
  | .null => false
  | .bool b => b
  | .num n => n != 0
  | .str s => s != ""
  | .arr xs => !xs.isEmpty
  | .obj kvs => !kvs.isEmpty

/-- Python `x[0]`: first element of a list or string (IndexError when
empty), KeyError on a string-keyed dictionary, TypeError on non-subscriptable
values. -/
def pySubscriptZero : JValue → Except PyErr JValue
  | .arr [] => Except.error PyErr.indexError
  | .arr (x :: _) => Except.ok x
  | .str s =>
    match s.data with
    | [] => Except.error PyErr.indexError
    | c :: _ => Except.ok (JValue.str (String.singleton c))
  | .obj _ => Except.error PyErr.keyError
  | _ => Except.error PyErr.typeError

/-- Python `x.get(k, dflt)`: dictionary lookup with default; AttributeError
when `x` is not a dictionary. -/
def pyDictGet : JValue → String → JValue → Except PyErr JValue
  | .obj kvs, k, dflt => Except.ok (dictGetD kvs k dflt)
  | _, _, _ => Except.error PyErr.attributeError

/-- Python `==` between a string literal and an arbitrary value (never
raises; values of different types are unequal). -/
def pyEqStr (s : String) : JValue → Bool
  | .str t => s == t
  | _ => false

/-- Python `key in x`: key membership for a dictionary, substring test for a
string, element membership for a list, TypeError otherwise. -/
def pyContains (v : JValue) (key : String) : Except PyErr Bool :=
  match v with
  | .obj kvs => Except.ok (dictFind kvs key).isSome
  | .str s => Except.ok (decide (key.data <:+: s.data))
  | .arr xs => Except.ok (xs.any (pyEqStr key))
  | _ => Except.error PyErr.typeError

/-- Python `x[key]` for a string key: dictionary lookup (KeyError when
absent), TypeError on lists/strings (indices must be integers) and on
non-subscriptable values. -/
def pySubscriptStr (v : JValue) (key : String) : Except PyErr JValue :=
  match v with
  | .obj kvs =>
    match dictFind kvs key with
    | some x => Except.ok x
    | none => Except.error PyErr.keyError
  | _ => Except.error PyErr.typeError

mutual
/-- Python `repr()` of a value (string escaping inside the quotes is not
modelled; no claim depends on it). -/
def pyRepr : JValue → String
  | .null => "None"
  | .bool true => "True"
  | .bool false => "False"
  | .num n => toString n
  | .str s => "\x27" ++ s ++ "\x27"
  | .arr xs => "[" ++ ", ".intercalate (pyReprList xs) ++ "]"
  | .obj kvs => "\x7b" ++ ", ".intercalate (pyReprPairs kvs) ++ "\x7d"

/-- Helper of `pyRepr` for lists. -/
def pyReprList : List JValue → List String
  | [] => []
  | x :: xs => pyRepr x :: pyReprList xs

/-- Helper of `pyRepr` for dictionary entries. -/
def pyReprPairs : List (String × JValue) → List String
  | [] => []
  | (k, v) :: kvs => ("\x27" ++ k ++ "\x27: " ++ pyRepr v) :: pyReprPairs kvs
end

/-- Python `str()` conversion, as used by f-string interpolation. -/
def pyStr : JValue → String
  | .str s => s
  | v => pyRepr v

/-- Hardcoded MSH header segment emitted by `convert_fhir_to_hl7`. -/
def MSH_HEADER : String :=
  "MSH|^~\\&|SENDING_APP|SENDING_FACILITY|RECEIVING_APP|RECEIVING_FACILITY|20230615120000||ADT^A01|MSG00001|P|2.5"

/-- The serializer `HealthcareAgent.convert_fhir_to_hl7` (`backend/agent.py`,
lines 80-102), translated operation by operation with Python dynamic
semantics; the final `"\r".join(hl7_message)` is inlined (one segment: the
header alone; two segments: header ++ CR ++ PID line). -/
def convert_fhir_to_hl7 (fhir_data : PyDict) : Except PyErr String :=
  match dictFind fhir_data "name" with
  | some nameVal =>
    if pyTruthy nameVal then do
      let name ← pySubscriptZero nameVal
      let family ← pyDictGet name "family" (JValue.str "")
      let given ← do
        let c ← pyContains name "given"
        if c then do
          let gv ← pySubscriptStr name "given"
          if pyTruthy gv then do
            let d ← pyDictGet name "given" (JValue.arr [JValue.str ""])
            pySubscriptZero d
          else pure (JValue.str "")
        else pure (JValue.str "")
      let patient_id := pyStr (dictGetD fhir_data "id" (JValue.str ""))
      let gender := pyStr (dictGetD fhir_data "gender" (JValue.str ""))
      let birth_date := pyStr (dictGetD fhir_data "birthDate" (JValue.str ""))
      pure (MSH_HEADER ++ "\r" ++ "PID|||" ++ patient_id ++ "||" ++ pyStr family ++ "^" ++
        pyStr given ++ "||" ++ birth_date ++ "|" ++ gender)
    else pure MSH_HEADER
  | none => pure MSH_HEADER

/-- One FHIR name entry of the PatientResource shape: optional `family`
string and optional `given` list of strings. -/
structure HumanName where
  family : Option String := none
  given : Option (List String) := none
deriving Repr, DecidableEq

/-- The PatientResource shape consumed by the serializer: optional `id`,
`gender`, `birthDate` strings and optional `name` sequence. -/
structure PatientResource where
  id : Option String := none
  gender : Option String := none
  birthDate : Option String := none
  name : Option (List HumanName) := none
deriving Repr, DecidableEq

/-- Encoding of an optional field: one dictionary entry when present, no
entry when absent. -/
def optField (k : String) : Option JValue → PyDict
  | some v => [(k, v)]
  | none => []

/-- Encoding of a name entry as the JSON object the serializer reads. -/
def encodeHumanName (n : HumanName) : JValue :=
  JValue.obj (optField "family" (n.family.map JValue.str) ++
    optField "given" (n.given.map (fun g => JValue.arr (g.map JValue.str))))

/-- Encoding of a PatientResource as the JSON dictionary the serializer
reads; absent fields produce no dictionary entry. -/
def encodePatient (x : PatientResource) : PyDict :=
  optField "id" (x.id.map JValue.str) ++
  optField "gender" (x.gender.map JValue.str) ++
  optField "birthDate" (x.birthDate.map JValue.str) ++
  optField "name" (x.name.map (fun l => JValue.arr (l.map encodeHumanName)))

theorem dictFind_encode_name (x : PatientResource) :
    dictFind (encodePatient x) "name" =
      x.name.map (fun l => JValue.arr (l.map encodeHumanName)) := by
  obtain ⟨i, g, b, n⟩ := x
  cases i <;> cases g <;> cases b <;> cases n <;> rfl

theorem pyStr_encode_id (x : PatientResource) :
    pyStr (dictGetD (encodePatient x) "id" (JValue.str "")) = x.id.getD "" := by
  obtain ⟨i, g, b, n⟩ := x
  cases i <;> cases g <;> cases b <;> cases n <;> rfl

theorem pyStr_encode_gender (x : PatientResource) :
    pyStr (dictGetD (encodePatient x) "gender" (JValue.str "")) = x.gender.getD "" := by
  obtain ⟨i, g, b, n⟩ := x
  cases i <;> cases g <;> cases b <;> cases n <;> rfl

theorem pyStr_encode_birthDate (x : PatientResource) :
    pyStr (dictGetD (encodePatient x) "birthDate" (JValue.str "")) = x.birthDate.getD "" := by
  obtain ⟨i, g, b, n⟩ := x
  cases i <;> cases g <;> cases b <;> cases n <;> rfl

theorem pyDictGet_encodeName_family (n : HumanName) :
    pyDictGet (encodeHumanName n) "family" (JValue.str "") =
      Except.ok (JValue.str (n.family.getD "")) := by
  obtain ⟨f, g⟩ := n
  cases f <;> cases g <;> rfl

theorem given_encodeName (n : HumanName) :
    (do
      let c ← pyContains (encodeHumanName n) "given"
      if c then do
        let gv ← pySubscriptStr (encodeHumanName n) "given"
        if pyTruthy gv then do
          let d ← pyDictGet (encodeHumanName n) "given" (JValue.arr [JValue.str ""])
          pySubscriptZero d
        else pure (JValue.str "")
      else pure (JValue.str "")) = Except.ok (JValue.str ((n.given.getD []).headD "")) := by
  obtain ⟨f, g⟩ := n
  cases f <;> cases g <;> first
    | rfl
    | (rename_i l; cases l <;> rfl)

/-- PID segment produced for a PatientResource whose first name entry is
`n`, each absent component defaulting to the empty string. -/
def pidLineOf (x : PatientResource) (n : HumanName) : String :=
  "PID|||" ++ (x.id.getD "" ++ ("||" ++ (n.family.getD "" ++ ("^" ++
    (((n.given.getD []).headD "") ++ ("||" ++ (x.birthDate.getD "" ++ ("|" ++
      x.gender.getD ""))))))))

/-- Expected serializer output on a typed PatientResource. -/
def hl7Of (x : PatientResource) : String :=
  match x.name with
  | some (n :: _) => MSH_HEADER ++ "\r" ++ pidLineOf x n
  | _ => MSH_HEADER

theorem pyContains_encodeName (n : HumanName) :
    pyContains (encodeHumanName n) "given" = Except.ok n.given.isSome := by
  obtain ⟨f, g⟩ := n
  cases f <;> cases g <;> rfl

theorem pySubscriptStr_encodeName (n : HumanName) (l : List String) (hg : n.given = some l) :
    pySubscriptStr (encodeHumanName n) "given" = Except.ok (JValue.arr (l.map JValue.str)) := by
  obtain ⟨f, g⟩ := n
  cases hg
  cases f <;> rfl

theorem pyDictGet_encodeName_given (n : HumanName) (l : List String) (hg : n.given = some l) :
    pyDictGet (encodeHumanName n) "given" (JValue.arr [JValue.str ""]) =
      Except.ok (JValue.arr (l.map JValue.str)) := by
  obtain ⟨f, g⟩ := n
  cases hg
  cases f <;> rfl

theorem pyStr_str (t : String) : pyStr (JValue.str t) = t := rfl

theorem convert_encode (x : PatientResource) :
    convert_fhir_to_hl7 (encodePatient x) = Except.ok (hl7Of x) := by
  have hname := dictFind_encode_name x
  cases hx : x.name with
  | none =>
    rw [hx, Option.map_none'] at hname
    unfold convert_fhir_to_hl7 hl7Of
    rw [hname, hx]
    rfl
  | some l =>
    rw [hx, Option.map_some'] at hname
    cases l with
    | nil =>
      unfold convert_fhir_to_hl7 hl7Of
      rw [hname, hx]
      rfl
    | cons n rest =>
      unfold convert_fhir_to_hl7 hl7Of
      rw [hname, hx]
      simp only [List.map_cons]
      rw [show pyTruthy (JValue.arr (encodeHumanName n :: rest.map encodeHumanName)) = true
        from rfl]
      simp only [if_true]
      rw [show pySubscriptZero (JValue.arr (encodeHumanName n :: rest.map encodeHumanName)) =
        Except.ok (encodeHumanName n) from rfl]
      rw [exceptBind_ok, pyDictGet_encodeName_family, exceptBind_ok]
      cases hg : n.given with
      | none =>
        simp only [pyContains_encodeName, hg, Option.isSome_none, exceptBind_ok,
          Bool.false_eq_true, if_false, exceptPure_eq, pyStr_str, pyStr_encode_id,
          pyStr_encode_gender, pyStr_encode_birthDate, pidLineOf, Option.getD_none,
          List.headD_nil]
        simp [String.append_assoc]
        rw [← String.append_assoc "\x0d" "PID|||"]
        rfl
      | some l =>
        cases l with
        | nil =>
          simp only [pyContains_encodeName, hg, Option.isSome_some, if_true, exceptBind_ok,
            pySubscriptStr_encodeName n [] hg, List.map_nil,
            show pyTruthy (JValue.arr []) = false from rfl, Bool.false_eq_true, if_false,
            exceptPure_eq, pyStr_str, pyStr_encode_id, pyStr_encode_gender,
            pyStr_encode_birthDate, pidLineOf, Option.getD_some, List.headD_nil]
          simp [String.append_assoc]
          rw [← String.append_assoc "\x0d" "PID|||"]
          rfl
        | cons g0 gs =>
          simp only [pyContains_encodeName, hg, Option.isSome_some, if_true, exceptBind_ok,
            pySubscriptStr_encodeName n (g0 :: gs) hg, List.map_cons,
            show pyTruthy (JValue.arr (JValue.str g0 :: gs.map JValue.str)) = true from rfl,
            pyDictGet_encodeName_given n (g0 :: gs) hg,
            show pySubscriptZero (JValue.arr (JValue.str g0 :: gs.map JValue.str)) =
              Except.ok (JValue.str g0) from rfl,
            exceptPure_eq, pyStr_str, pyStr_encode_id, pyStr_encode_gender,
            pyStr_encode_birthDate, pidLineOf, Option.getD_some, List.headD_cons]
          simp [String.append_assoc]
          rw [← String.append_assoc "\x0d" "PID|||"]
          rfl

/-- C4: the serializer always emits the fixed hardcoded MSH header first;
when the record has no name entry (or an empty name list) the output is
exactly the header with no trailing separator and no PID line; when the name
list is non-empty the output is the header, a carriage return, and one
segment `PID|||{id}||{family}^{given}||{birthDate}|{gender}` with each
absent component defaulting to the empty string (`pidLineOf`); in
particular, on `{name: [{family: "Doe", given: ["Jane"]}], id: "7",
gender: "F", birthDate: "19900101"}` the output is the header followed by a
carriage return and `PID|||7||Doe^Jane||19900101|F`. -/
theorem convert_header_and_pid (x : PatientResource) :
    ((x.name = none ∨ x.name = some []) →
      convert_fhir_to_hl7 (encodePatient x) = Except.ok MSH_HEADER) ∧
    (∀ n rest, x.name = some (n :: rest) →
      convert_fhir_to_hl7 (encodePatient x) =
        Except.ok (MSH_HEADER ++ "\r" ++ pidLineOf x n)) ∧
    convert_fhir_to_hl7 (encodePatient
      { id := some "7", gender := some "F", birthDate := some "19900101",
        name := some [{ family := some "Doe", given := some ["Jane"] }] }) =
      Except.ok (MSH_HEADER ++ "\r" ++ "PID|||7||Doe^Jane||19900101|F") := by
  refine ⟨?_, ?_, ?_⟩
  · intro h
    rw [convert_encode]
    unfold hl7Of
    rcases h with h | h <;> rw [h]
  · intro n rest h
    rw [convert_encode]
    unfold hl7Of
    rw [h]
  · rfl

/-- Witness instantiating C4: the empty-name branch on `{id: "7"}` and the
PID branch on the concrete example record. -/
theorem convert_header_and_pid_witness :
    convert_fhir_to_hl7 (encodePatient { id := some "7" }) = Except.ok MSH_HEADER ∧
    convert_fhir_to_hl7 (encodePatient
      { id := some "7", gender := some "F", birthDate := some "19900101",
        name := some [{ family := some "Doe", given := some ["Jane"] }] }) =
      Except.ok (MSH_HEADER ++ "\r" ++
        pidLineOf
          { id := some "7", gender := some "F", birthDate := some "19900101",
            name := some [{ family := some "Doe", given := some ["Jane"] }] }
          { family := some "Doe", given := some ["Jane"] }) :=
  ⟨(convert_header_and_pid { id := some "7" }).1 (Or.inl rfl),
   (convert_header_and_pid
      { id := some "7", gender := some "F", birthDate := some "19900101",
        name := some [{ family := some "Doe", given := some ["Jane"] }] }).2.1
      { family := some "Doe", given := some ["Jane"] } [] rfl⟩

/-- Counterexample to C7 as stated: on the dictionary `{"name": "x"}` —
whose `name` entry is not the specified sequence-of-name-entries shape —
the serializer computes `fhir_data["name"][0]`, which is the string `"x"`,
and then calls `.get` on it, raising `AttributeError`.  The serializer
therefore does raise on malformed input. -/
theorem convert_malformed_raises_cex :
    convert_fhir_to_hl7 [("name", JValue.str "x")] = Except.error PyErr.attributeError := rfl

/-- C7 (amended): the serializer never raises on any dictionary that encodes
a record of the PatientResource shape (optional id/gender/birthDate strings,
name a sequence of entries with optional family string and optional given
string list); on mappings outside that shape it can raise (see the
counterexample). -/
theorem convert_total_on_patient (x : PatientResource) :
    ∃ s, convert_fhir_to_hl7 (encodePatient x) = Except.ok s :=
  ⟨hl7Of x, convert_encode x⟩

theorem string_mk_data (s : String) : String.mk s.data = s := rfl

theorem pySplit_sep_append (a b : String) (sep : Char)
    (ha : sep ∉ a.data) (hb : sep ∉ b.data) :
    pySplit (a ++ String.singleton sep ++ b) sep = [a, b] := by
  unfold pySplit
  have hd : (a ++ String.singleton sep ++ b).data = a.data ++ sep :: b.data := by
    simp [String.data_append]
  rw [hd]
  unfold List.splitOn
  rw [List.splitOnP_first _ _ (fun x hx => by simp; rintro rfl; exact ha hx) sep (by simp)]
  rw [List.splitOnP_eq_single _ _ (fun x hx => by simp; rintro rfl; exact hb hx)]
  simp [string_mk_data]

theorem pySplit_cr_append (a b : String) (ha : '\r' ∉ a.data) (hb : '\r' ∉ b.data) :
    pySplit (a ++ "\r" ++ b) '\r' = [a, b] := by
  rw [show ("\r" : String) = String.singleton '\r' from rfl]
  exact pySplit_sep_append a b '\r' ha hb

theorem pid_prefix_split (t : String) :
    pySplit ("PID|||" ++ t) '|' = "PID" :: "" :: "" :: pySplit t '|' := by
  unfold pySplit
  have hd : (("PID|||" : String) ++ t).data =
      'P' :: 'I' :: 'D' :: '|' :: '|' :: '|' :: t.data := by
    simp [String.data_append]
  rw [hd]
  unfold List.splitOn
  simp only [List.splitOnP_cons, show (('P' == '|') = false) from rfl,
    show (('I' == '|') = false) from rfl, show (('D' == '|') = false) from rfl,
    show (('|' == '|') = true) from rfl, if_true, if_false, Bool.false_eq_true]
  simp [List.modifyHead]

theorem segmentType_pid_line (t : String) : segmentType ("PID|||" ++ t) = "PID" := by
  unfold segmentType
  rw [pid_prefix_split]
  rfl

theorem obsOf_pid_line (t : String) : obsOf ("PID|||" ++ t) = none := by
  unfold obsOf
  simp [segmentType_pid_line]

/-- Counterexample to C8 as stated: a PatientResource whose `id` string
embeds a carriage return followed by an OBX-shaped segment.  The serializer
splices the `id` into the PID line verbatim, and re-parsing the serialized
message yields an `observations` entry — so it is not true that
`parse(toHl7(x))` contains no observations entry for EVERY PatientResource. -/
theorem roundtrip_cex :
    convert_fhir_to_hl7 (encodePatient
      { id := some "7\rOBX|||CODE||VAL", gender := some "F", birthDate := some "19900101",
        name := some [{ family := some "Doe", given := some ["Jane"] }] }) =
      Except.ok (MSH_HEADER ++ "\rPID|||7\rOBX|||CODE||VAL||Doe^Jane||19900101|F") ∧
    parse_hl7_message (MSH_HEADER ++ "\rPID|||7\rOBX|||CODE||VAL||Doe^Jane||19900101|F") =
      Except.ok { patient_id := none, last_name := none, first_name := none,
                  observations := some [{ id := "CODE", value := "VAL", units := some "" }] } :=
  ⟨rfl, rfl⟩

/-- C8 (amended): for every PatientResource whose serialized string fields
(id, gender, birthDate and, when the name list is non-empty, the first
entry's family and first given name) contain no carriage-return character,
the round trip `parse(toHl7(x))` contains no `observations` entry:
observations are never serialized, so a record carrying observation data
loses it across the round trip.  (When a field embeds a carriage return
followed by an OBX-shaped segment the re-parse can contain observations —
see the counterexample.) -/
theorem roundtrip_no_observations (x : PatientResource)
    (hid : '\r' ∉ (x.id.getD "").data)
    (hgender : '\r' ∉ (x.gender.getD "").data)
    (hbirth : '\r' ∉ (x.birthDate.getD "").data)
    (hname : ∀ n rest, x.name = some (n :: rest) →
      '\r' ∉ (n.family.getD "").data ∧ '\r' ∉ ((n.given.getD []).headD "").data)
    (s : String) (hs : convert_fhir_to_hl7 (encodePatient x) = Except.ok s)
    (r : ParsedRecord) (hr : parse_hl7_message s = Except.ok r) :
    r.observations = none := by
  have hsx : s = hl7Of x := by
    have h2 : Except.ok s = Except.ok (hl7Of x) := hs.symm.trans (convert_encode x)
    injection h2
  subst hsx
  have hrr := parse_result_eq _ _ hr
  subst hrr
  unfold parsePure
  have hflt : (pySplit (hl7Of x) '\r').filterMap obsOf = [] := by
    unfold hl7Of
    cases hx : x.name with
    | none => exact (by decide : (pySplit MSH_HEADER '\r').filterMap obsOf = [])
    | some l =>
      cases l with
      | nil => exact (by decide : (pySplit MSH_HEADER '\r').filterMap obsOf = [])
      | cons n rest =>
        have hline : '\r' ∉ (pidLineOf x n).data := by
          obtain ⟨hf, hg⟩ := hname n rest hx
          unfold pidLineOf
          simp only [String.data_append, List.mem_append, not_or]
          exact ⟨by decide, hid, by decide, hf, by decide, hg, by decide, hbirth, by decide,
            hgender⟩
        rw [pySplit_cr_append MSH_HEADER (pidLineOf x n) (by decide) hline]
        simp only [List.filterMap_cons, List.filterMap_nil]
        rw [show obsOf MSH_HEADER = none from by decide]
        rw [pidLineOf, obsOf_pid_line]
  have hfin := (foldl_observations (pySplit (hl7Of x) '\r') ({} : ParsedRecord)).2
  rw [hflt] at hfin
  simp only [show ({} : ParsedRecord).observations = none from rfl, Option.isSome_none,
    Bool.false_eq_true, false_or, ne_eq, not_true_eq_false, iff_false,
    Bool.not_eq_true] at hfin
  cases hobs : (List.foldl processSegmentPure {} (pySplit (hl7Of x) '\r')).observations with
  | none => rfl
  | some l =>
    rw [hobs] at hfin
    simp at hfin

/-- Witness instantiating the amended C8 on a concrete record (including an
extra `observations`-like loss: the parse result of the round trip has no
observations entry). -/
theorem roundtrip_no_observations_witness :
    ({ patient_id := some "7", last_name := some "Doe", first_name := some "Jane",
       observations := none } : ParsedRecord).observations = none :=
  roundtrip_no_observations
    { id := some "7", gender := some "F", birthDate := some "19900101",
      name := some [{ family := some "Doe", given := some ["Jane"] }] }
    (by decide) (by decide) (by decide)
    (by
      intro n rest h
      simp only [Option.some.injEq, List.cons.injEq] at h
      obtain ⟨h1, h2⟩ := h
      subst h1
      exact ⟨by decide, by decide⟩)
    (MSH_HEADER ++ "\rPID|||7||Doe^Jane||19900101|F") rfl
    { patient_id := some "7", last_name := some "Doe", first_name := some "Jane",
      observations := none } rfl

/-- The HTTP verbs supported by `call_external_api`. -/
inductive HttpMethod where
  | get
  | post
  | put
  | delete
deriving Repr, DecidableEq

/-- Python `method.upper()` restricted to its per-character ASCII action
(every method string the gateway compares against is ASCII). -/
def pyUpper (s : String) : String := String.mk (s.data.map Char.toUpper)

/-- Method dispatch of `HealthcareAgent.call_external_api` (`backend/agent.py`,
lines 104-118): the chain of `method.upper() == ...` comparisons selecting
which HTTP request to perform.  A matching branch returns the selected verb
(the request itself is outside the model); the final `else` raises
`ValueError` before any request is attempted. -/
def call_external_api_method (method : String) : Except PyErr HttpMethod :=
  if pyUpper method = "GET" then Except.ok HttpMethod.get
  else if pyUpper method = "POST" then Except.ok HttpMethod.post
  else if pyUpper method = "PUT" then Except.ok HttpMethod.put
  else if pyUpper method = "DELETE" then Except.ok HttpMethod.delete
  else Except.error PyErr.valueError

/-- C9: the dispatcher accepts exactly GET, POST, PUT, DELETE matched
case-insensitively (via upper-casing): for every method string whose
upper-casing is not one of the four verbs it raises ValueError without
selecting any request, and for every method whose upper-casing is one of
the four it selects the corresponding verb and raises nothing. -/
theorem call_method_cases (method : String) :
    (pyUpper method ∉ (["GET", "POST", "PUT", "DELETE"] : List String) →
      call_external_api_method method = Except.error PyErr.valueError) ∧
    (pyUpper method = "GET" → call_external_api_method method = Except.ok HttpMethod.get) ∧
    (pyUpper method = "POST" → call_external_api_method method = Except.ok HttpMethod.post) ∧
    (pyUpper method = "PUT" → call_external_api_method method = Except.ok HttpMethod.put) ∧
    (pyUpper method = "DELETE" →
      call_external_api_method method = Except.ok HttpMethod.delete) := by
  unfold call_external_api_method
  refine ⟨?_, ?_, ?_, ?_, ?_⟩
  · intro h
    simp only [List.mem_cons, List.mem_singleton, not_or] at h
    obtain ⟨h1, h2, h3, h4⟩ := h
    simp [h1, h2, h3, h4]
  · intro h
    simp [h]
  · intro h
    simp [h]
  · intro h
    simp [h]
  · intro h
    simp [h]

/-- Witness instantiating C9: the lower-case `delete` is accepted, and the
method string `PATCH` is rejected with ValueError. -/
theorem call_method_cases_witness :
    call_external_api_method "delete" = Except.ok HttpMethod.delete ∧
    call_external_api_method "PATCH" = Except.error PyErr.valueError :=
  ⟨(call_method_cases "delete").2.2.2.2 (by decide),
   (call_method_cases "PATCH").1 (by decide)⟩
